import Mathlib

/-!
Shallow embedding of the build-tools repository's download-verify-extract-install
pipeline and its config/regeneration helpers, together with theorems checking the
natural-language specification against it.

Sources embedded:
* `src/utils/goma.js` : `downloadAndPrepareGoma` (accelerator pipeline) and the
  Xcode installer half of the file (`expectedXcodeVersion`, `fallbackXcode`,
  `extractXcodeVersion` call structure, `fixBadVersioned103`, `ensureXcode`).
* the build CLI: `ensureGNGen` (regeneration gate).

File-system effects are embedded as explicit state passing plus an event trace;
external processes (the download script, `tar`, `unzip`, `md5`, `defaults`) are
embedded through environment records carrying their exit statuses / outputs.
-/

/-! ## Generic string helpers (JS semantics, list-based so they evaluate) -/

/-- JS `String.prototype.trim`: strip whitespace from both ends. -/
def jsTrim (s : String) : String :=
  String.mk (((s.data.dropWhile Char.isWhitespace).reverse.dropWhile Char.isWhitespace).reverse)

/-- Lowercase hex character: digit or `'a'`-`'f'`. -/
def lowerHexChar (c : Char) : Bool :=
  (48 ≤ c.toNat && c.toNat ≤ 57) || (97 ≤ c.toNat && c.toNat ≤ 102)

/-- Every character of the string is lowercase hex. -/
def lowerHexStr (s : String) : Bool :=
  s.data.all lowerHexChar

/-- Case-insensitive string equality (the comparison the spec asks for). -/
def eqCaseInsensitive (a b : String) : Bool :=
  a.data.map Char.toLower == b.data.map Char.toLower

/-- JS `String.prototype.startsWith`. -/
def jsStartsWith (s p : String) : Bool :=
  p.data.isPrefixOf s.data

/-- JS `String.prototype.endsWith`. -/
def jsEndsWith (s suffix : String) : Bool :=
  suffix.data.isSuffixOf s.data

/-! ## Association-table lookup (JS object property access on the fixed tables) -/

def tableLookup {β : Type} (t : List (String × β)) (k : String) : Option β :=
  match t with
  | [] => none
  | (k', v) :: rest => if k = k' then some v else tableLookup rest k

/-! ## Accelerator (goma) pipeline: data from `src/utils/goma.js` -/

def thirdPartyDir : String := "third_party"

def gomaDirPath : String := thirdPartyDir ++ "/goma"

/-- Contents written to `goma.gn` (lines 52-56). -/
def gomaGnContents : String := "goma_dir = \"" ++ gomaDirPath ++ "\"\nuse_goma = true"

/-- The `GOMA_PLATFORM_SHAS` table (lines 27-33). -/
def GOMA_PLATFORM_SHAS : List (String × String) :=
  [("darwin", "adf8a01f08dce16f335389d0e427867a4282a9fa03d2e436f2f96527ab606f76"),
   ("darwin-arm64", "81347e9557f2dc805317f59ac23b56d97570a21be0f197c458615f4c78052db8"),
   ("linux", "f94f784f58b414f3556da9f03baf911588ce45e9a6ed35e26fb5ee21a632863e"),
   ("linux-arm64", "d04746105c7fd2ffcbb8e398481d5235708380b512a4995626993965ca9dc5dc"),
   ("win32", "dfa5b12dbdeedb8c0c411a0e5521495ce8ef9907abdef99748ef4685e1a77f3e")]

/-- The `MSFT_GOMA_PLATFORM_SHAS` table (lines 35-41). -/
def MSFT_GOMA_PLATFORM_SHAS : List (String × String) :=
  [("darwin", "dac2881cf5f7565fa432f32bc4635a9752e56984966b5fe43f7b37892b4d4553"),
   ("darwin-arm64", "d8006830527a37cce19ea03a37fd43db2e0a7c65e90e8d1eac7874ea08e16d45"),
   ("linux", "ee0199542ced43908f1d60c67872ec1d4925d0d97200ff214eaf6cbf18f2a92b"),
   ("linux-arm64", "486bd5da5ac16919cb6a7e33c3c29aa35ca345364fb6e2f2438348e6a6d07222"),
   ("win32", "a54dd1f574f92fa8a6bc81a939d9415fa2dc8f36cea9ea64eb43736dd3ecac4b")]

/-- The archive filename per platform (lines 68-74). -/
def gomaFilenames : List (String × String) :=
  [("darwin", "goma-mac.tgz"),
   ("darwin-arm64", "goma-mac-arm64.tgz"),
   ("linux", "goma-linux.tgz"),
   ("linux-arm64", "goma-linux-arm64.tgz"),
   ("win32", "goma-win.zip")]

def gomaPlatformKeys : List String :=
  GOMA_PLATFORM_SHAS.map Prod.fst

/-- Inputs of one `downloadAndPrepareGoma` run that come from outside the
filesystem state: the resolved platform, config, environment variable, and the
results of the external processes it spawns. `downloadedHash` is the SHA-256
hex digest (`crypto.createHash('SHA256')...digest('hex')`, lines 101-104) of
whatever bytes the download script produced. -/
structure GomaEnv where
  gomaPlatform : String
  msftSource : Bool
  redownload : Bool
  downloadStatus : Int
  downloadedHash : String
  tarStatus : Int
  unzipThrows : Bool

/-- Filesystem state touched by the accelerator pipeline. The `.sha` marker
file and `goma_ctl.py` live inside the goma directory, so deleting the goma
directory deletes them too. -/
structure GomaState where
  gomaGn : Option String
  gomaDirExists : Bool
  gomaCtlPy : Bool
  shaFile : Option String
  tmpDownloadExists : Bool

inductive GomaEvent where
  | writeGnFile
  | stopGoma
  | rimrafGomaDir
  | rimrafTmp
  | download
  | extract (dest : String)
  | writeMarker (sha : String)
  | fatal
deriving DecidableEq

inductive GomaResult where
  | notSupported
  | alreadyInstalled (sha : String)
  | fatalDownload
  | fatalChecksum (computed expected : String)
  | fatalExtract
  | unzipThrown
  | success (sha : String)
deriving DecidableEq

/-- The installed-check of lines 61-66:
`fs.existsSync(gomaShaFile) && fs.readFileSync(gomaShaFile, 'utf8') === sha &&
!process.env.ELECTRON_FORGE_GOMA_REDOWNLOAD`. -/
def isInstalled (shaFile : Option String) (sha : String) (redownload : Bool) : Bool :=
  match shaFile with
  | none => false
  | some contents => contents == sha && !redownload

/-- The sha selected at lines 57-60: the platform sha, replaced by the MSFT
table entry when `config.gomaSource === 'msft'` (the two tables have the same
keys). -/
def gomaSelectedSha (env : GomaEnv) : String :=
  match tableLookup GOMA_PLATFORM_SHAS env.gomaPlatform with
  | none => ""
  | some baseSha =>
    if env.msftSource then (tableLookup MSFT_GOMA_PLATFORM_SHAS env.gomaPlatform).getD baseSha
    else baseSha

/-- Embedding of `downloadAndPrepareGoma` (lines 45-129). Returns the function
result, the final filesystem state and the trace of effects, in program order.
Paths: the temporary download lives at `third_party/<filename>` and extraction
runs with `cwd` = `third_party` (`targetDir = path.resolve(tmpDownload, '..')`,
line 115), the parent of the install directory `third_party/goma`. -/
def downloadAndPrepareGoma (env : GomaEnv) (st0 : GomaState) :
    GomaResult × GomaState × List GomaEvent :=
  match tableLookup GOMA_PLATFORM_SHAS env.gomaPlatform with
  | none => (.notSupported, st0, [])
  | some _ =>
    let sha := gomaSelectedSha env
    -- lines 52-56: (re)write goma.gn when absent or different
    let wroteGn := st0.gomaGn ≠ some gomaGnContents
    let st1 : GomaState := if wroteGn then { st0 with gomaGn := some gomaGnContents } else st0
    let ev1 : List GomaEvent := if wroteGn then [.writeGnFile] else []
    -- lines 61-66: early return when the marker matches and no redownload is forced
    if isInstalled st1.shaFile sha env.redownload then
      (.alreadyInstalled sha, st1, ev1)
    else
      let filename := (tableLookup gomaFilenames env.gomaPlatform).getD ""
      -- lines 76-81: stop a previously running client if goma_ctl.py is present
      let ev2 := ev1 ++ (if st1.gomaCtlPy then [GomaEvent.stopGoma] else [])
      -- lines 83-86: rimraf the goma dir (removing .sha and goma_ctl.py inside
      -- it) and any stale tmp download, then spawn the download script
      let st2 : GomaState :=
        { st1 with gomaDirExists := false, gomaCtlPy := false, shaFile := none,
                   tmpDownloadExists := false }
      let ev3 := ev2 ++ [.rimrafGomaDir, .rimrafTmp, .download]
      if env.downloadStatus ≠ 0 then
        -- lines 97-100: rimraf tmp, fatal
        (.fatalDownload, { st2 with tmpDownloadExists := false }, ev3 ++ [.rimrafTmp, .fatal])
      else
        let st3 := { st2 with tmpDownloadExists := true }
        -- lines 101-113: SHA256 of the downloaded bytes, exact `!==` comparison
        if env.downloadedHash ≠ sha then
          (.fatalChecksum env.downloadedHash sha,
           { st3 with tmpDownloadExists := false }, ev3 ++ [.rimrafTmp, .fatal])
        else
          -- lines 115-125: extraction, dispatched on the archive kind
          if jsEndsWith filename ".tgz" then
            if env.tarStatus ≠ 0 then
              -- line 121: fatal; the tmp archive is still on disk here
              (.fatalExtract, st3, ev3 ++ [.extract thirdPartyDir, .fatal])
            else
              (.success sha,
               { st3 with gomaDirExists := true, gomaCtlPy := true,
                          tmpDownloadExists := false, shaFile := some sha },
               ev3 ++ [.extract thirdPartyDir, .rimrafTmp, .writeMarker sha])
          else
            -- line 124: unzipSync throws on failure; the exception propagates
            if env.unzipThrows then
              (.unzipThrown, st3, ev3 ++ [.extract thirdPartyDir])
            else
              (.success sha,
               { st3 with gomaDirExists := true, gomaCtlPy := true,
                          tmpDownloadExists := false, shaFile := some sha },
               ev3 ++ [.extract thirdPartyDir, .rimrafTmp, .writeMarker sha])

/-- A run whose download-and-verify phase did not fail. -/
def downloadVerified : GomaResult → Bool
  | .fatalDownload => false
  | .fatalChecksum _ _ => false
  | _ => true

/-! ## Xcode installer: data from the Xcode half of `src/utils/goma.js` -/

structure XcodeVersionInfo where
  fileName : String
  md5 : String
deriving DecidableEq

/-- The `XcodeVersions` table (lines 260-305). -/
def XcodeVersions : List (String × XcodeVersionInfo) :=
  [("9.4.1", ⟨"Xcode-9.4.1.zip", "84be26baae0ce613e64306e0c39162ae"⟩),
   ("11.1.0", ⟨"Xcode-11.1.zip", "f24c258035ed1513afc96eaa9a2500c0"⟩),
   ("10.3.0", ⟨"Xcode-10.3.0.zip", "df587e65d9243fc87b22db617e23c376"⟩),
   ("11.5.0", ⟨"Xcode-11.5.zip", "2665cc451d86e58bac68dcced0a22945"⟩),
   ("12.0.0-UA", ⟨"Xcode-12.0.0-UA.zip", "28c3f8a906be53361260b01fa5792baa"⟩),
   ("12.2.0", ⟨"Xcode-12.2.0.zip", "d1bfc9b5bc829ec81b999b78c5795508"⟩),
   ("12.4.0", ⟨"Xcode-12.4.0.zip", "20828f7208e67f99928cc88aaafca00c"⟩),
   ("13.2.1", ⟨"Xcode-13.2.1.zip", "cb1193a5a23eeeb4e9c5fd87557be8ce"⟩),
   ("13.3.0", ⟨"Xcode-13.3.0.zip", "b216a27212fdd0be922d83687aad22bf"⟩),
   ("14.1.0", ⟨"Xcode-14.1.0.zip", "3dc1a4d8bc6abd5448be4f2d96a04f62"⟩),
   ("14.3.0", ⟨"Xcode-14.3.0.zip", "4bc9043b275625568f81d9727ad6aef8"⟩)]

def xcodeVersionKeys : List String := XcodeVersions.map Prod.fst

/-- Effect of `semver.valid(semver.coerce(v))` on every key of the table: the
leading `major.minor.patch` numeric triple as a string (for `12.0.0-UA` the
`-UA` suffix is dropped; all other keys are already plain triples). -/
def coerceVersion (v : String) : String :=
  String.mk (v.data.takeWhile (fun c => c.isDigit || c = '.'))

def splitDotAux : List Char → List (List Char)
  | [] => [[]]
  | c :: rest =>
    let r := splitDotAux rest
    if c = '.' then [] :: r
    else
      match r with
      | [] => [[c]]
      | h :: t => (c :: h) :: t

def digitsVal (l : List Char) : Nat :=
  l.foldl (fun n c => 10 * n + (c.toNat - 48)) 0

/-- Numeric `major.minor.patch` view of a version string. -/
def semverTriple (s : String) : Nat × Nat × Nat :=
  match (splitDotAux s.data).map digitsVal with
  | [a, b, c] => (a, b, c)
  | _ => (0, 0, 0)

/-- Semantic-version comparison (`a ≤ b`) on coerced triples. -/
def semverLeB (a b : String) : Bool :=
  let x := semverTriple a
  let y := semverTriple b
  if x.1 ≠ y.1 then decide (x.1 < y.1)
  else if x.2.1 ≠ y.2.1 then decide (x.2.1 < y.2.1)
  else decide (x.2.2 ≤ y.2.2)

def insertDesc (x : String) : List String → List String
  | [] => [x]
  | y :: ys => if semverLeB y x then x :: y :: ys else y :: insertDesc x ys

/-- Sort descending by semantic-version comparison (`sort(semver.rcompare)`). -/
def sortVersionsDesc (l : List String) : List String :=
  l.foldr insertDesc []

/-- The `fallbackXcode` default (lines 307-313): coerce every key of
`XcodeVersions`, sort descending by semver comparison, take the first. -/
def fallbackXcode : String :=
  (sortVersionsDesc (xcodeVersionKeys.map coerceVersion)).headD ""

/-! ### Version resolution (`expectedXcodeVersion`, lines 339-397)

Each candidate config source is embedded as whether the file exists on disk
together with the result of `extractXcodeVersion` (lines 329-337) on its
contents: `some v` when one of the two extraction patterns matched, `none`
otherwise. In the code `version = fs.existsSync(p) && extractXcodeVersion(...)`
leaves a falsy value (`false` or `null`) when the source is absent or does not
match, and each subsequent block is guarded by `if (!version)`. -/

structure CandidateSource where
  existsOnDisk : Bool
  extracted : Option String
deriving DecidableEq

/-- One `if (!version) { version = fs.existsSync(p) && extractXcodeVersion(...) }`
block. -/
def scanCandidate (version : Option String) (src : CandidateSource) : Option String :=
  match version with
  | some v => some v
  | none => if src.existsOnDisk then src.extracted else none

/-- Inputs of `expectedXcodeVersion`: the three candidate config sources, in
the order the code consults them, and the Ventura platform constraint
(`sw_vers -productVersion` starting with `13`, lines 363-367). -/
structure XcodeResolveEnv where
  src1 : CandidateSource
  src2 : CandidateSource
  src3 : CandidateSource
  isVentura : Bool

/-- The three chained candidate-source blocks of lines 344-361. -/
def scanVersion (env : XcodeResolveEnv) : Option String :=
  scanCandidate (scanCandidate (scanCandidate none env.src1) env.src2) env.src3

/-- The same scan over an arbitrary ordered list of candidate sources (the
spec's `candidateSources` sequence). -/
def resolveFromSources (sources : List CandidateSource) : Option String :=
  sources.foldl scanCandidate none

def startsWith14 : Option String → Bool
  | some v => jsStartsWith v "14"
  | none => false

/-- Embedding of `expectedXcodeVersion` (lines 339-397). Returns the resolved
version and whether a warning was emitted; every branch returns (there is no
fatal path). Order of the checks follows the code: the Ventura constraint
first, then the no-match fallback, then the unknown-version fallback. -/
def expectedXcodeVersion (env : XcodeResolveEnv) : String × Bool :=
  let version := scanVersion env
  if env.isVentura && version.isSome && !(startsWith14 version) then (fallbackXcode, true)
  else
    match version with
    | none => (fallbackXcode, true)
    | some v =>
      if (tableLookup XcodeVersions v).isSome then (v, false) else (fallbackXcode, true)

/-! ### `ensureXcode` (lines 411-496)

The entry at `third_party/Xcode/Xcode.app` is either absent, a symbolic link,
or a real directory. `Xcode-<v>.app` entries inside `third_party/Xcode` are
kept as an association list from version to what sits at that path (normally a
real app directory; the mis-swap of interest can also park a symlink there).
The md5 of an on-disk zip is carried in place of its bytes, since the code
only ever consumes the zip through `hashFile` and `unzip`. -/

inductive XcodeEntry where
  | absent
  | link (target : String)
  | realDir
deriving DecidableEq

def entryExists : XcodeEntry → Bool
  | .absent => false
  | _ => true

/-- Line 478: `fs.statSync(XcodePath).isSymbolicLink()`. `fs.statSync` follows
symbolic links, so the `Stats` it returns never describes a link and
`isSymbolicLink()` is `false` for every entry that exists (`fs.lstatSync`
would have been needed to observe a link). -/
def statSyncIsSymbolicLink (_e : XcodeEntry) : Bool := false

structure XcodeState where
  entry : XcodeEntry
  versioned : List (String × XcodeEntry)
  zip : Option String
  scratch : Bool

/-- Inputs of one `ensureXcode` run: the resolved expected version, the
version `getXcodeVersion()` reports for the app currently at `Xcode.app`
(read through a symlink; `"unknown"` when `defaults` fails, lines 315-327),
and the outcomes of the download, hash and unzip subprocesses.
`downloadedHash` is the `md5 -q` output `hashFile` computes for a freshly
downloaded zip (lines 498-504). -/
structure XcodeEnv where
  expected : String
  detected : String
  downloadStatus : Int
  downloadedHash : String
  unzipOk : Bool

inductive XcodeEvent where
  | fix103Remove
  | fix103Rename
  | rimrafZip
  | download
  | rimrafScratch
  | unzip (dest : String)
  | renameScratchInto (v : String)
  | unlinkXcodePath
  | renameXcodeAside (v : String)
  | rimrafXcodePath
  | symlinkTo (v : String)
  | fatal
deriving DecidableEq

inductive XcodeResult where
  | ok
  | fatalDownload
  | fatalChecksum (computed expected : String)
  | renameThrown
  | versionNotInTable
deriving DecidableEq

def xcodeDirPath : String := thirdPartyDir ++ "/Xcode"

def scratchPath : String := xcodeDirPath ++ "/tmp_unzip"

def xcodeAppPath : String := xcodeDirPath ++ "/Xcode.app"

def versionedPathOf (v : String) : String := xcodeDirPath ++ "/Xcode-" ++ v ++ ".app"

def hasVersioned (l : List (String × XcodeEntry)) (v : String) : Bool :=
  (tableLookup l v).isSome

/-- Embedding of `fixBadVersioned103` (lines 399-409). -/
def fixBadVersioned103 (st : XcodeState) : XcodeState × List XcodeEvent :=
  if hasVersioned st.versioned "10.3" then
    if hasVersioned st.versioned "10.3.0" then
      ({ st with versioned := st.versioned.filter (fun p => p.1 ≠ "10.3") }, [.fix103Remove])
    else
      ({ st with versioned :=
          st.versioned.map (fun p => if p.1 = "10.3" then ("10.3.0", p.2) else p) },
       [.fix103Rename])
  else (st, [])

/-- Lines 477-491: swap the freshly extracted version into place. The
`isSymbolicLink` branch never runs (see `statSyncIsSymbolicLink`); an
existing entry is instead renamed aside under the detected version name when
`Xcode-<detected>.app` is free, and removed otherwise (`rimraf` on a symlink
unlinks only the link). Finally `fs.symlinkSync` points `Xcode.app` at
`Xcode-<expected>.app`. -/
def xcodeSwap (env : XcodeEnv) (st : XcodeState) : XcodeState × List XcodeEvent :=
  let (st1, evs) :=
    if entryExists st.entry then
      if statSyncIsSymbolicLink st.entry then
        ({ st with entry := .absent }, [XcodeEvent.unlinkXcodePath])
      else
        if hasVersioned st.versioned env.detected then
          ({ st with entry := .absent }, [XcodeEvent.rimrafXcodePath])
        else
          ({ st with entry := .absent,
                     versioned := (env.detected, st.entry) :: st.versioned },
           [XcodeEvent.renameXcodeAside env.detected])
    else (st, [])
  ({ st1 with entry := .link (versionedPathOf env.expected) }, evs ++ [.symlinkTo env.expected])

/-- Lines 463-472: extract the zip into the `tmp_unzip` scratch directory
(removed first), move `Xcode.app` out of it to `Xcode-<expected>.app`, then
delete the zip and the scratch directory. The unzip exit status is never
checked; when unzip fails to produce `Xcode.app`, `fs.renameSync` throws and
the run aborts with the zip and the scratch directory still on disk. On
success the run continues with the swap and the final line-493 `rimraf` of the
zip. -/
def extractAndSwap (env : XcodeEnv) (st : XcodeState) (evs : List XcodeEvent) :
    XcodeResult × XcodeState × List XcodeEvent :=
  let st1 := { st with scratch := true }
  let ev1 := evs ++ [XcodeEvent.rimrafScratch, XcodeEvent.unzip scratchPath]
  if env.unzipOk then
    let st2 := { st1 with versioned := (env.expected, XcodeEntry.realDir) :: st1.versioned,
                          zip := none, scratch := false }
    let ev2 := ev1 ++ [XcodeEvent.renameScratchInto env.expected,
                       XcodeEvent.rimrafZip, XcodeEvent.rimrafScratch]
    let (st3, ev3) := xcodeSwap env st2
    (.ok, { st3 with zip := none }, ev2 ++ ev3 ++ [.rimrafZip])
  else
    (.renameThrown, st1, ev1)

/-- Embedding of `ensureXcode` (lines 411-496) for a given resolved `expected`
version. -/
def ensureXcode (env : XcodeEnv) (st0 : XcodeState) :
    XcodeResult × XcodeState × List XcodeEvent :=
  let (st, ev0) := fixBadVersioned103 st0
  -- line 415: `!fs.existsSync(XcodePath) || getXcodeVersion() !== expected`
  let shouldEnsure := !(entryExists st.entry) || env.detected ≠ env.expected
  if !shouldEnsure then
    -- nothing to do; line 493 still deletes any leftover zip
    (.ok, { st with zip := none }, ev0 ++ [.rimrafZip])
  else
    match tableLookup XcodeVersions env.expected with
    | none =>
      -- line 419 `XcodeVersions[expected].md5` raises a TypeError in JS
      (.versionNotInTable, st, ev0)
    | some info =>
      if hasVersioned st.versioned env.expected then
        -- line 422: the versioned app already exists; skip download and extraction
        let (st2, ev1) := xcodeSwap env st
        (.ok, { st2 with zip := none }, ev0 ++ ev1 ++ [.rimrafZip])
      else
        -- lines 423-436: decide whether to download, discarding a stale zip
        let preDecision :
            Bool × XcodeState × List XcodeEvent :=
          match st.zip with
          | some h =>
            if h = info.md5 then (false, st, ev0)
            else (true, { st with zip := none }, ev0 ++ [.rimrafZip])
          | none => (true, st, ev0)
        let shouldDownload := preDecision.1
        let st1 := preDecision.2.1
        let ev1 := preDecision.2.2
        if shouldDownload then
          let ev2 := ev1 ++ [XcodeEvent.download]
          if env.downloadStatus ≠ 0 then
            -- lines 449-452: rimraf the zip, fatal
            (.fatalDownload, { st1 with zip := none }, ev2 ++ [.rimrafZip, .fatal])
          else
            let st2 := { st1 with zip := some env.downloadedHash }
            -- lines 454-460: `md5 -q` of the downloaded zip, exact `!==` comparison
            if env.downloadedHash ≠ info.md5 then
              (.fatalChecksum env.downloadedHash info.md5,
               { st2 with zip := none }, ev2 ++ [.rimrafZip, .fatal])
            else
              extractAndSwap env st2 ev2
        else
          extractAndSwap env st1 ev1

/-- A run whose download-and-verify phase did not fail. -/
def xcodeVerified : XcodeResult → Bool
  | .fatalDownload => false
  | .fatalChecksum _ _ => false
  | _ => true

/-! ## Regeneration gate: `ensureGNGen` from the build CLI -/

/-- The desired arguments text:
`config.gen.args.join(process.platform === 'win32' ? '\r\n' : '\n')`. -/
def joinedGenArgs (isWin32 : Bool) (args : List String) : String :=
  String.intercalate (if isWin32 then "\r\n" else "\n") args

/-- The regeneration decision embodied in `ensureGNGen`: regenerate when
`build.ninja` is absent from the output directory, when `args.gn` is absent,
and otherwise exactly when the trimmed `args.gn` contents differ from the
trimmed desired-arguments text. The persisted contents are compared as read;
only the desired side is built with the platform's separator. -/
def needsRegeneration (buildNinjaExists : Bool) (argsFileContents : Option String)
    (isWin32 : Bool) (genArgs : List String) : Bool :=
  if !buildNinjaExists then true
  else
    match argsFileContents with
    | none => true
    | some contents =>
      !(jsTrim contents == jsTrim (joinedGenArgs isWin32 genArgs))

/-- Replace every CRLF by LF. -/
def stripCrLf : List Char → List Char
  | [] => []
  | '\r' :: '\n' :: rest => '\n' :: stripCrLf rest
  | c :: rest => c :: stripCrLf rest

/-- Modelled from the spec: "comparison must normalize line endings to the
platform's native convention before comparing". This second definition
follows the spec's words (CRLF on win32, LF elsewhere), to be compared with
`needsRegeneration`, which performs no normalization of the persisted
contents. -/
def specNormalizeEol (isWin32 : Bool) (s : String) : String :=
  let unixed := stripCrLf s.data
  if isWin32 then
    String.mk (unixed.foldr (fun c acc => if c = '\n' then '\r' :: '\n' :: acc else c :: acc) [])
  else String.mk unixed

/-! ## Event classifiers and concrete runs used by the theorems below -/

/-- Holds of every accelerator-trace event except an extraction aimed anywhere
other than `third_party` (the parent of the install directory). -/
def gomaExtractTargetsParent : GomaEvent → Bool
  | .extract d => d == thirdPartyDir
  | _ => true

/-- Holds of every SDK-trace event except an unzip aimed anywhere other than
the `tmp_unzip` scratch directory. -/
def xcodeUnzipTargetsScratch : XcodeEvent → Bool
  | .unzip d => d == scratchPath
  | _ => true

/-- An empty accelerator filesystem: nothing installed, no marker, no tmp. -/
def gomaStEmpty : GomaState :=
  { gomaGn := none, gomaDirExists := false, gomaCtlPy := false, shaFile := none,
    tmpDownloadExists := false }

/-- Accelerator run on darwin where the download and checksum succeed but
`tar` exits with status 2. -/
def gomaEnvTarFail : GomaEnv :=
  { gomaPlatform := "darwin", msftSource := false, redownload := true,
    downloadStatus := 0,
    downloadedHash := "adf8a01f08dce16f335389d0e427867a4282a9fa03d2e436f2f96527ab606f76",
    tarStatus := 2, unzipThrows := false }

/-- The same run with `tar` succeeding. -/
def gomaEnvOk : GomaEnv :=
  { gomaEnvTarFail with tarStatus := 0 }

/-- The same run with the download script exiting non-zero. -/
def gomaEnvDlFail : GomaEnv :=
  { gomaEnvTarFail with downloadStatus := 1 }

/-- Accelerator run on darwin whose downloaded bytes hash to the linux sha:
a checksum mismatch between two lowercase hex digests. -/
def gomaEnvBadHash : GomaEnv :=
  { gomaEnvTarFail with
    downloadedHash := "f94f784f58b414f3556da9f03baf911588ce45e9a6ed35e26fb5ee21a632863e",
    tarStatus := 0 }

/-- An SDK state where `Xcode.app` is a symbolic link to an Xcode installed
outside the versioned store, and the expected version is already present
versioned. -/
def xcodeStLinked : XcodeState :=
  { entry := .link "/Applications/Xcode.app",
    versioned := [("14.3.0", .realDir)],
    zip := none, scratch := false }

/-- An SDK run over `xcodeStLinked`: the external app's detected version is
13.2.1, for which no `Xcode-13.2.1.app` exists. -/
def xcodeEnvLinked : XcodeEnv :=
  { expected := "14.3.0", detected := "13.2.1", downloadStatus := 0,
    downloadedHash := "", unzipOk := true }

/-- An empty SDK filesystem. -/
def xcodeStEmpty : XcodeState :=
  { entry := .absent, versioned := [], zip := none, scratch := false }

/-- A fully successful SDK install run of version 14.3.0. -/
def xcodeEnvPlain : XcodeEnv :=
  { expected := "14.3.0", detected := "", downloadStatus := 0,
    downloadedHash := "4bc9043b275625568f81d9727ad6aef8", unzipOk := true }

/-- An SDK run whose downloaded zip hashes to the 9.4.1 md5 instead of the
expected 14.3.0 md5. -/
def xcodeEnvBadHash : XcodeEnv :=
  { xcodeEnvPlain with downloadedHash := "84be26baae0ce613e64306e0c39162ae" }

/-- A resolver environment in which no candidate config source exists. -/
def resolveEnvNone : XcodeResolveEnv :=
  { src1 := ⟨false, none⟩, src2 := ⟨false, none⟩, src3 := ⟨false, none⟩,
    isVentura := false }

/-! ## Lemmas about the string helpers -/

theorem toLower_of_lowerHex (c : Char) (h : lowerHexChar c = true) : c.toLower = c := by
  simp only [lowerHexChar, Bool.or_eq_true, Bool.and_eq_true, decide_eq_true_eq] at h
  unfold Char.toLower
  rw [if_neg]
  omega

theorem map_toLower_of_lowerHex :
    ∀ l : List Char, l.all lowerHexChar = true → l.map Char.toLower = l := by
  intro l h
  induction l with
  | nil => rfl
  | cons c cs ih =>
    simp only [List.all_cons, Bool.and_eq_true] at h
    simp [List.map_cons, toLower_of_lowerHex c h.1, ih h.2]

theorem eqCaseInsensitive_iff_eq (a b : String)
    (ha : lowerHexStr a = true) (hb : lowerHexStr b = true) :
    eqCaseInsensitive a b = true ↔ a = b := by
  unfold eqCaseInsensitive lowerHexStr at *
  rw [map_toLower_of_lowerHex a.data ha, map_toLower_of_lowerHex b.data hb]
  constructor
  · intro h
    exact String.ext (by simpa using h)
  · intro h
    subst h
    simp

theorem eqCaseInsensitive_refl (a : String) : eqCaseInsensitive a a = true := by
  simp [eqCaseInsensitive]

/-! ## Supporting lemmas about the tables -/

theorem lookup_isSome_of_mem_keys (p : String) (h : p ∈ gomaPlatformKeys) :
    (tableLookup GOMA_PLATFORM_SHAS p).isSome = true := by
  simp [gomaPlatformKeys, GOMA_PLATFORM_SHAS] at h
  rcases h with h|h|h|h|h <;> subst h <;> decide

theorem lowerHex_gomaSelectedSha (env : GomaEnv) (h : env.gomaPlatform ∈ gomaPlatformKeys) :
    lowerHexStr (gomaSelectedSha env) = true := by
  obtain ⟨p, msft, re, ds, dh, ts, uz⟩ := env
  simp only [gomaPlatformKeys, GOMA_PLATFORM_SHAS, List.map, List.mem_cons,
    List.not_mem_nil, or_false] at h
  rcases h with h|h|h|h|h <;> subst h <;> cases msft <;> simp only [gomaSelectedSha] <;> decide

theorem tableLookup_mem {β : Type} (t : List (String × β)) (k : String) (v : β)
    (h : tableLookup t k = some v) : (k, v) ∈ t := by
  induction t with
  | nil => cases h
  | cons p rest ih =>
    rcases p with ⟨k', w⟩
    by_cases hk : k = k'
    · subst hk
      simp [tableLookup] at h
      simp [h]
    · simp [tableLookup, hk] at h
      exact List.mem_cons_of_mem _ (ih h)

theorem lowerHex_xcode_md5 (k : String) (info : XcodeVersionInfo)
    (h : tableLookup XcodeVersions k = some info) : lowerHexStr info.md5 = true := by
  have hm := tableLookup_mem _ _ _ h
  have hall : ∀ p ∈ XcodeVersions, lowerHexStr p.2.md5 = true := by decide
  exact hall _ hm

/-! ## Supporting lemmas about the pipelines -/

set_option maxHeartbeats 1000000 in
theorem c1_goma_aux (env : GomaEnv) (st : GomaState)
    (hplat : env.gomaPlatform ∈ gomaPlatformKeys)
    (hhash : lowerHexStr env.downloadedHash = true)
    (hinst : isInstalled st.shaFile (gomaSelectedSha env) env.redownload = false)
    (hdl : env.downloadStatus = 0) :
    (downloadVerified (downloadAndPrepareGoma env st).1 = true
       ↔ eqCaseInsensitive env.downloadedHash (gomaSelectedSha env) = true)
    ∧ (eqCaseInsensitive env.downloadedHash (gomaSelectedSha env) = false →
        (downloadAndPrepareGoma env st).1
            = .fatalChecksum env.downloadedHash (gomaSelectedSha env)
        ∧ (downloadAndPrepareGoma env st).2.1.tmpDownloadExists = false
        ∧ (downloadAndPrepareGoma env st).2.1.shaFile = none
        ∧ ((downloadAndPrepareGoma env st).2.2.count .download) = 1
        ∧ (downloadAndPrepareGoma env st).2.2.getLast? = some .fatal) := by
  have hlsha := lowerHex_gomaSelectedSha env hplat
  have hiff := eqCaseInsensitive_iff_eq env.downloadedHash (gomaSelectedSha env) hhash hlsha
  have hsome := lookup_isSome_of_mem_keys env.gomaPlatform hplat
  obtain ⟨bs, hbs⟩ := Option.isSome_iff_exists.mp hsome
  by_cases hh : env.downloadedHash = gomaSelectedSha env
  · have hci : eqCaseInsensitive env.downloadedHash (gomaSelectedSha env) = true := hiff.mpr hh
    refine ⟨?_, ?_⟩
    · rw [hci]
      simp only [downloadAndPrepareGoma, hbs, hinst, hdl]
      split_ifs <;> simp_all [downloadVerified]
    · intro hfalse
      rw [hci] at hfalse
      cases hfalse
  · have hci : eqCaseInsensitive env.downloadedHash (gomaSelectedSha env) = false := by
      cases hEq : eqCaseInsensitive env.downloadedHash (gomaSelectedSha env)
      · rfl
      · exact absurd (hiff.mp hEq) hh
    rw [hci]
    refine ⟨?_, fun _ => ?_⟩
    · simp only [Bool.false_eq_true, iff_false]
      simp only [downloadAndPrepareGoma, hbs, hinst, hdl]
      split_ifs <;> simp_all [downloadVerified]
    · simp only [downloadAndPrepareGoma, hbs, hinst, hdl]
      split_ifs <;> simp_all [List.count_append, List.getLast?]

set_option maxHeartbeats 1000000 in
theorem c1_xcode_aux (env : XcodeEnv) (st : XcodeState) (info : XcodeVersionInfo)
    (hlook : tableLookup XcodeVersions env.expected = some info)
    (h103 : hasVersioned st.versioned "10.3" = false)
    (hver : hasVersioned st.versioned env.expected = false)
    (hdet : env.detected ≠ env.expected)
    (hzip : st.zip = none)
    (hhash : lowerHexStr env.downloadedHash = true)
    (hdl : env.downloadStatus = 0) :
    (xcodeVerified (ensureXcode env st).1 = true
       ↔ eqCaseInsensitive env.downloadedHash info.md5 = true)
    ∧ (eqCaseInsensitive env.downloadedHash info.md5 = false →
        (ensureXcode env st).1 = .fatalChecksum env.downloadedHash info.md5
        ∧ (ensureXcode env st).2.1.zip = none
        ∧ ((ensureXcode env st).2.2.count .download) = 1
        ∧ (ensureXcode env st).2.2.getLast? = some .fatal) := by
  have hmd5 := lowerHex_xcode_md5 env.expected info hlook
  have hiff := eqCaseInsensitive_iff_eq env.downloadedHash info.md5 hhash hmd5
  by_cases hh : env.downloadedHash = info.md5
  · have hci : eqCaseInsensitive env.downloadedHash info.md5 = true := hiff.mpr hh
    refine ⟨?_, ?_⟩
    · rw [hci]
      simp only [ensureXcode, fixBadVersioned103, h103, if_neg, Bool.false_eq_true,
        ite_false, hlook, hver, hzip, hdet, hdl]
      simp [hdet, extractAndSwap, xcodeSwap]
      split_ifs <;> simp_all [xcodeVerified]
    · intro hfalse
      rw [hci] at hfalse
      cases hfalse
  · have hci : eqCaseInsensitive env.downloadedHash info.md5 = false := by
      cases hEq : eqCaseInsensitive env.downloadedHash info.md5
      · rfl
      · exact absurd (hiff.mp hEq) hh
    rw [hci]
    refine ⟨?_, fun _ => ?_⟩
    · simp only [Bool.false_eq_true, iff_false]
      simp [ensureXcode, fixBadVersioned103, h103, hlook, hver, hzip, hdet, hdl, hh,
        xcodeVerified]
    · simp [ensureXcode, fixBadVersioned103, h103, hlook, hver, hzip, hdet, hdl, hh,
        List.count_append]

theorem extractAndSwap_result (env : XcodeEnv) (st : XcodeState) (evs : List XcodeEvent) :
    ((extractAndSwap env st evs).1 = .ok ∧ (extractAndSwap env st evs).2.1.zip = none)
    ∨ ((extractAndSwap env st evs).1 = .renameThrown
        ∧ (extractAndSwap env st evs).2.1.zip = st.zip
        ∧ (extractAndSwap env st evs).2.1.scratch = true) := by
  simp only [extractAndSwap]
  split_ifs <;> simp

theorem extractAndSwap_trace (env : XcodeEnv) (st : XcodeState) (evs : List XcodeEvent) :
    ∃ rest, (extractAndSwap env st evs).2.2
      = evs ++ [XcodeEvent.rimrafScratch, XcodeEvent.unzip scratchPath] ++ rest := by
  simp only [extractAndSwap]
  split_ifs
  · refine ⟨[XcodeEvent.renameScratchInto env.expected, XcodeEvent.rimrafZip,
        XcodeEvent.rimrafScratch] ++
      (xcodeSwap env
        { entry := st.entry, versioned := (env.expected, XcodeEntry.realDir) :: st.versioned,
          zip := none, scratch := false }).2 ++ [XcodeEvent.rimrafZip], ?_⟩
    simp
  · exact ⟨[], by simp⟩

theorem xcodeSwap_no_unzip (env : XcodeEnv) (st : XcodeState) :
    (xcodeSwap env st).2.all xcodeUnzipTargetsScratch = true := by
  simp only [xcodeSwap]
  split_ifs <;> simp [xcodeUnzipTargetsScratch]

theorem extractAndSwap_unzip_events (env : XcodeEnv) (st : XcodeState) (evs : List XcodeEvent)
    (h : evs.all xcodeUnzipTargetsScratch = true) :
    (extractAndSwap env st evs).2.2.all xcodeUnzipTargetsScratch = true := by
  simp only [extractAndSwap]
  have hsw := xcodeSwap_no_unzip env
    { entry := st.entry, versioned := (env.expected, XcodeEntry.realDir) :: st.versioned,
      zip := none, scratch := false }
  split_ifs <;> simp_all [xcodeUnzipTargetsScratch]

theorem extractAndSwap_ok_zip (env : XcodeEnv) (st : XcodeState) (evs : List XcodeEvent) :
    (extractAndSwap env st evs).1 = .ok → (extractAndSwap env st evs).2.1.zip = none := by
  rcases extractAndSwap_result env st evs with ⟨h1, h2⟩ | ⟨h1, h2, h3⟩ <;> simp_all

theorem extractAndSwap_renameThrown (env : XcodeEnv) (st : XcodeState) (evs : List XcodeEvent)
    (hz : st.zip.isSome = true) :
    (extractAndSwap env st evs).1 = .renameThrown →
      (extractAndSwap env st evs).2.1.zip.isSome = true
      ∧ (extractAndSwap env st evs).2.1.scratch = true := by
  rcases extractAndSwap_result env st evs with ⟨h1, h2⟩ | ⟨h1, h2, h3⟩ <;> simp_all

set_option maxHeartbeats 1000000 in
theorem ensureXcode_ok_zip (env : XcodeEnv) (st : XcodeState) :
    (ensureXcode env st).1 = .ok → (ensureXcode env st).2.1.zip = none := by
  rcases hfix : fixBadVersioned103 st with ⟨stf, evf⟩
  rcases htl : tableLookup XcodeVersions env.expected with _ | info <;>
    rcases hz : stf.zip with _ | zh <;>
    simp only [ensureXcode, hfix, htl, hz] <;>
    split_ifs <;>
    (try exact extractAndSwap_ok_zip _ _ _) <;>
    simp_all

set_option maxHeartbeats 1000000 in
theorem ensureXcode_renameThrown (env : XcodeEnv) (st : XcodeState) :
    (ensureXcode env st).1 = .renameThrown →
      (ensureXcode env st).2.1.zip.isSome = true ∧ (ensureXcode env st).2.1.scratch = true := by
  rcases hfix : fixBadVersioned103 st with ⟨stf, evf⟩
  rcases htl : tableLookup XcodeVersions env.expected with _ | info <;>
    rcases hz : stf.zip with _ | zh <;>
    simp only [ensureXcode, hfix, htl, hz] <;>
    split_ifs <;>
    (try exact extractAndSwap_renameThrown _ _ _ (by simp_all)) <;>
    simp_all

theorem fix103_no_unzip (st : XcodeState) :
    (fixBadVersioned103 st).2.all xcodeUnzipTargetsScratch = true := by
  simp only [fixBadVersioned103]
  split_ifs <;> simp [xcodeUnzipTargetsScratch]

theorem foldl_scanCandidate_some (v : String) (l : List CandidateSource) :
    l.foldl scanCandidate (some v) = some v := by
  induction l with
  | nil => rfl
  | cons x xs ih => simpa [scanCandidate] using ih

/-! ## Claim theorems -/

/-- C1: for every downloaded file and expected checksum (the computed digests
are lowercase hex, as `digest('hex')` and `md5 -q` output always are, and the
expected values come from the checksum tables), the download step of each
pipeline succeeds iff the digest equals the expected checksum compared
case-insensitively (over lowercase hex operands this coincides with the exact
`!==` the code performs); on a mismatch the run returns a checksum failure
carrying both the computed and expected values, the temporary file is deleted,
exactly one download was attempted (no retry), and the trace ends in the
fatal exit. -/
theorem c1_download_checksum_verification :
    (∀ (env : GomaEnv) (st : GomaState),
        env.gomaPlatform ∈ gomaPlatformKeys →
        lowerHexStr env.downloadedHash = true →
        isInstalled st.shaFile (gomaSelectedSha env) env.redownload = false →
        env.downloadStatus = 0 →
        ((downloadVerified (downloadAndPrepareGoma env st).1 = true
            ↔ eqCaseInsensitive env.downloadedHash (gomaSelectedSha env) = true)
          ∧ (eqCaseInsensitive env.downloadedHash (gomaSelectedSha env) = false →
              (downloadAndPrepareGoma env st).1
                  = .fatalChecksum env.downloadedHash (gomaSelectedSha env)
              ∧ (downloadAndPrepareGoma env st).2.1.tmpDownloadExists = false
              ∧ (downloadAndPrepareGoma env st).2.1.shaFile = none
              ∧ ((downloadAndPrepareGoma env st).2.2.count .download) = 1
              ∧ (downloadAndPrepareGoma env st).2.2.getLast? = some .fatal)))
    ∧ (∀ (env : XcodeEnv) (st : XcodeState) (info : XcodeVersionInfo),
        tableLookup XcodeVersions env.expected = some info →
        hasVersioned st.versioned "10.3" = false →
        hasVersioned st.versioned env.expected = false →
        env.detected ≠ env.expected →
        st.zip = none →
        lowerHexStr env.downloadedHash = true →
        env.downloadStatus = 0 →
        ((xcodeVerified (ensureXcode env st).1 = true
            ↔ eqCaseInsensitive env.downloadedHash info.md5 = true)
          ∧ (eqCaseInsensitive env.downloadedHash info.md5 = false →
              (ensureXcode env st).1 = .fatalChecksum env.downloadedHash info.md5
              ∧ (ensureXcode env st).2.1.zip = none
              ∧ ((ensureXcode env st).2.2.count .download) = 1
              ∧ (ensureXcode env st).2.2.getLast? = some .fatal))) :=
  ⟨fun env st h1 h2 h3 h4 => c1_goma_aux env st h1 h2 h3 h4,
   fun env st info h1 h2 h3 h4 h5 h6 h7 => c1_xcode_aux env st info h1 h2 h3 h4 h5 h6 h7⟩

theorem c1_download_checksum_verification_witness :
    ((downloadAndPrepareGoma gomaEnvBadHash gomaStEmpty).1
        = .fatalChecksum "f94f784f58b414f3556da9f03baf911588ce45e9a6ed35e26fb5ee21a632863e"
            "adf8a01f08dce16f335389d0e427867a4282a9fa03d2e436f2f96527ab606f76"
      ∧ (downloadAndPrepareGoma gomaEnvBadHash gomaStEmpty).2.1.tmpDownloadExists = false)
    ∧ ((ensureXcode xcodeEnvBadHash xcodeStEmpty).1
        = .fatalChecksum "84be26baae0ce613e64306e0c39162ae" "4bc9043b275625568f81d9727ad6aef8"
      ∧ (ensureXcode xcodeEnvBadHash xcodeStEmpty).2.1.zip = none) := by
  have hg := (c1_download_checksum_verification.1 gomaEnvBadHash gomaStEmpty
    (by simp [gomaEnvBadHash, gomaEnvTarFail, gomaPlatformKeys, GOMA_PLATFORM_SHAS])
    rfl rfl rfl).2 rfl
  have hx := (c1_download_checksum_verification.2 xcodeEnvBadHash xcodeStEmpty
    ⟨"Xcode-14.3.0.zip", "4bc9043b275625568f81d9727ad6aef8"⟩
    rfl rfl rfl (by simp [xcodeEnvBadHash, xcodeEnvPlain]) rfl rfl rfl).2 rfl
  exact ⟨⟨hg.1, hg.2.1⟩, ⟨hx.1, hx.2.1⟩⟩

/-- C2 counterexample: an accelerator run on darwin in which the download and
checksum succeed but `tar` exits with status 2. The run signals the extraction
failure, yet the original downloaded archive is still on disk in the final
state — `fatal` fires before the `rimraf.sync(tmpDownload)` of line 126 is
reached — contradicting the claim that the archive is deleted on failure. -/
theorem c2_archive_deletion_counterexample :
    (downloadAndPrepareGoma gomaEnvTarFail gomaStEmpty).1 = .fatalExtract
    ∧ (downloadAndPrepareGoma gomaEnvTarFail gomaStEmpty).2.1.tmpDownloadExists = true :=
  ⟨rfl, rfl⟩

set_option maxHeartbeats 1000000 in
/-- C2 amended: the archive is deleted only on success. On a successful
accelerator run the tmp archive is gone; when `tar` fails, the run is fatal
with the archive still on disk. On a successful SDK run the zip is gone; when
unzip fails (its status is unchecked and the subsequent rename throws), the
zip and the scratch directory are both left on disk. -/
theorem c2_archive_deletion_amended (envG : GomaEnv) (stG : GomaState)
    (envX : XcodeEnv) (stX : XcodeState) :
    (∀ s, (downloadAndPrepareGoma envG stG).1 = .success s →
        (downloadAndPrepareGoma envG stG).2.1.tmpDownloadExists = false)
    ∧ ((downloadAndPrepareGoma envG stG).1 = .fatalExtract →
        (downloadAndPrepareGoma envG stG).2.1.tmpDownloadExists = true)
    ∧ ((ensureXcode envX stX).1 = .ok → (ensureXcode envX stX).2.1.zip = none)
    ∧ ((ensureXcode envX stX).1 = .renameThrown →
        (ensureXcode envX stX).2.1.zip.isSome = true
        ∧ (ensureXcode envX stX).2.1.scratch = true) := by
  refine ⟨?_, ?_, ensureXcode_ok_zip envX stX, ensureXcode_renameThrown envX stX⟩
  · rcases htl : tableLookup GOMA_PLATFORM_SHAS envG.gomaPlatform with _ | bs
    · simp [downloadAndPrepareGoma, htl]
    · simp only [downloadAndPrepareGoma, htl]
      split_ifs <;> simp_all
  · rcases htl : tableLookup GOMA_PLATFORM_SHAS envG.gomaPlatform with _ | bs
    · simp [downloadAndPrepareGoma, htl]
    · simp only [downloadAndPrepareGoma, htl]
      split_ifs <;> simp_all

theorem c2_archive_deletion_amended_witness :
    (downloadAndPrepareGoma gomaEnvOk gomaStEmpty).2.1.tmpDownloadExists = false
    ∧ (downloadAndPrepareGoma gomaEnvTarFail gomaStEmpty).2.1.tmpDownloadExists = true
    ∧ (ensureXcode xcodeEnvPlain xcodeStEmpty).2.1.zip = none := by
  refine ⟨(c2_archive_deletion_amended gomaEnvOk gomaStEmpty xcodeEnvPlain xcodeStEmpty).1
      "adf8a01f08dce16f335389d0e427867a4282a9fa03d2e436f2f96527ab606f76" rfl,
    (c2_archive_deletion_amended gomaEnvTarFail gomaStEmpty xcodeEnvPlain xcodeStEmpty).2.1 rfl,
    (c2_archive_deletion_amended gomaEnvOk gomaStEmpty xcodeEnvPlain xcodeStEmpty).2.2.1 rfl⟩

/-- C3 counterexample: a fully successful accelerator run extracts with
destination `third_party` — the parent of the install directory
`third_party/goma`, the directory that also holds the downloaded archive —
and that extraction directly materializes the install directory. No scratch
directory exists anywhere in the accelerator pipeline (its event vocabulary
has no scratch creation or move-into-place step), contradicting the claim
that extraction always targets a fresh scratch directory for every artifact
kind. -/
theorem c3_scratch_extraction_counterexample :
    (downloadAndPrepareGoma gomaEnvOk gomaStEmpty).1
        = .success "adf8a01f08dce16f335389d0e427867a4282a9fa03d2e436f2f96527ab606f76"
    ∧ ((downloadAndPrepareGoma gomaEnvOk gomaStEmpty).2.2.contains
        (GomaEvent.extract thirdPartyDir)) = true
    ∧ gomaDirPath = thirdPartyDir ++ "/goma"
    ∧ (downloadAndPrepareGoma gomaEnvOk gomaStEmpty).2.1.gomaDirExists = true :=
  ⟨rfl, rfl, rfl, rfl⟩

set_option maxHeartbeats 1000000 in
/-- C3 amended: only the SDK installer extracts into a fresh scratch
directory. Every accelerator extraction targets `third_party`, the parent of
the (previously deleted) install directory, with no scratch directory; every
SDK unzip targets the `tmp_unzip` scratch directory, and the extraction step
always removes the scratch directory immediately before unzipping into it. -/
theorem c3_scratch_extraction_amended (envG : GomaEnv) (stG : GomaState)
    (envX : XcodeEnv) (stX : XcodeState) (evs : List XcodeEvent) :
    ((downloadAndPrepareGoma envG stG).2.2.all gomaExtractTargetsParent) = true
    ∧ ((ensureXcode envX stX).2.2.all xcodeUnzipTargetsScratch) = true
    ∧ (∃ rest, (extractAndSwap envX stX evs).2.2
        = evs ++ [XcodeEvent.rimrafScratch, XcodeEvent.unzip scratchPath] ++ rest) := by
  refine ⟨?_, ?_, extractAndSwap_trace envX stX evs⟩
  · rcases htl : tableLookup GOMA_PLATFORM_SHAS envG.gomaPlatform with _ | bs
    · simp [downloadAndPrepareGoma, htl]
    · simp only [downloadAndPrepareGoma, htl]
      split_ifs <;> simp_all [gomaExtractTargetsParent]
  · rcases hfix : fixBadVersioned103 stX with ⟨stf, evf⟩
    have hevf : evf.all xcodeUnzipTargetsScratch = true := by
      have h := fix103_no_unzip stX
      rw [hfix] at h
      exact h
    rcases htl : tableLookup XcodeVersions envX.expected with _ | info <;>
      rcases hz : stf.zip with _ | zh <;>
      simp only [ensureXcode, hfix, htl, hz] <;>
      split_ifs <;>
      (try exact extractAndSwap_unzip_events _ _ _ (by simp_all [xcodeUnzipTargetsScratch])) <;>
      simp_all [xcodeUnzipTargetsScratch, List.all_append, xcodeSwap_no_unzip]

/-- C4 counterexample: a marker file holding the darwin sha followed by a
trailing newline. Its trimmed contents equal the desired marker value, so the
claim says the installed-check returns true; the code compares the raw file
contents with `===` (no trim) and returns false. -/
theorem c4_marker_trim_counterexample :
    jsTrim ("adf8a01f08dce16f335389d0e427867a4282a9fa03d2e436f2f96527ab606f76" ++ "\n")
        = "adf8a01f08dce16f335389d0e427867a4282a9fa03d2e436f2f96527ab606f76"
    ∧ isInstalled
        (some ("adf8a01f08dce16f335389d0e427867a4282a9fa03d2e436f2f96527ab606f76" ++ "\n"))
        "adf8a01f08dce16f335389d0e427867a4282a9fa03d2e436f2f96527ab606f76" false = false :=
  ⟨rfl, rfl⟩

/-- C4 amended: the installed-check returns false when the marker file does
not exist, regardless of the requested value; otherwise it returns true iff
the file's exact, untrimmed contents equal the desired value and the
force-redownload environment flag is unset. -/
theorem c4_marker_exact_amended (c sha : String) (r : Bool) :
    isInstalled none sha r = false
    ∧ isInstalled (some c) sha r = (c == sha && !r)
    ∧ (isInstalled (some c) sha r = true ↔ c = sha ∧ r = false) := by
  refine ⟨rfl, rfl, ?_⟩
  simp [isInstalled]

set_option maxHeartbeats 1000000 in
/-- C5: the install marker is written, verbatim, only as the final step of a
fully successful accelerator run: a marker-write event in the trace forces the
run to have succeeded with that very value, and on success the write is the
last event of the trace and the marker file holds exactly the new sha. On any
failed run (download, checksum or extraction failure) no marker write occurs. -/
theorem c5_marker_final_step (env : GomaEnv) (st : GomaState) :
    (∀ s, GomaEvent.writeMarker s ∈ (downloadAndPrepareGoma env st).2.2 →
        (downloadAndPrepareGoma env st).1 = .success s)
    ∧ (∀ s, (downloadAndPrepareGoma env st).1 = .success s →
        (downloadAndPrepareGoma env st).2.2.getLast? = some (.writeMarker s)
        ∧ (downloadAndPrepareGoma env st).2.1.shaFile = some s) := by
  rcases htl : tableLookup GOMA_PLATFORM_SHAS env.gomaPlatform with _ | bs
  · simp [downloadAndPrepareGoma, htl]
  · simp only [downloadAndPrepareGoma, htl]
    split_ifs <;> simp_all

theorem c5_marker_final_step_witness :
    (downloadAndPrepareGoma gomaEnvOk gomaStEmpty).2.2.getLast?
        = some (.writeMarker "adf8a01f08dce16f335389d0e427867a4282a9fa03d2e436f2f96527ab606f76")
    ∧ (downloadAndPrepareGoma gomaEnvOk gomaStEmpty).2.1.shaFile
        = some "adf8a01f08dce16f335389d0e427867a4282a9fa03d2e436f2f96527ab606f76" :=
  (c5_marker_final_step gomaEnvOk gomaStEmpty).2
    "adf8a01f08dce16f335389d0e427867a4282a9fa03d2e436f2f96527ab606f76" rfl

/-- C6: evaluation of the swap on the failing input. `Xcode.app` is a symbolic
link to an Xcode outside the versioned store whose detected version (13.2.1)
has no `Xcode-13.2.1.app`. The claim says only the link is removed and then
recreated; because `fs.statSync` follows symlinks, `isSymbolicLink()` is
always false, the unlink branch is dead code, and the run instead renames the
symlink itself aside as `Xcode-13.2.1.app` — the final state records the old
link parked as a versioned install, and no unlink event ever occurs. -/
theorem c6_symlink_swap_bug_eval :
    (ensureXcode xcodeEnvLinked xcodeStLinked).1 = .ok
    ∧ ((ensureXcode xcodeEnvLinked xcodeStLinked).2.2.contains .unlinkXcodePath) = false
    ∧ ((ensureXcode xcodeEnvLinked xcodeStLinked).2.2.contains
        (.renameXcodeAside "13.2.1")) = true
    ∧ ((ensureXcode xcodeEnvLinked xcodeStLinked).2.1.versioned.contains
        ("13.2.1", XcodeEntry.link "/Applications/Xcode.app")) = true
    ∧ (ensureXcode xcodeEnvLinked xcodeStLinked).2.1.entry
        = .link (versionedPathOf "14.3.0") :=
  ⟨rfl, rfl, rfl, rfl, rfl⟩

/-- C7: the version resolver consults the candidate config sources in priority
order and returns the extracted version of the first source that exists and
whose content matches its extraction pattern, never consulting later sources
after a match; the code's three chained blocks equal the list-scan, and in the
scenario where source 1 is absent, source 2 exists but does not match, and
source 3 exists and matches, the resolver returns source 3's extraction. -/
theorem c7_priority_resolution :
    (∀ sources : List CandidateSource,
        resolveFromSources sources
          = (sources.find? (fun s => s.existsOnDisk && s.extracted.isSome)).bind
              (fun s => s.extracted))
    ∧ (∀ env : XcodeResolveEnv,
        scanVersion env = resolveFromSources [env.src1, env.src2, env.src3])
    ∧ scanVersion ⟨⟨false, some "9.9.9"⟩, ⟨true, none⟩, ⟨true, some "12.2.0"⟩, false⟩
        = some "12.2.0" := by
  refine ⟨?_, fun env => rfl, rfl⟩
  intro sources
  induction sources with
  | nil => rfl
  | cons s rest ih =>
    rcases s with ⟨he, hx⟩
    cases he <;> cases hx <;>
      simp_all [resolveFromSources, scanCandidate, List.find?, foldl_scanCandidate_some]

/-- C8: whenever no candidate source matches, or the matched version is not in
the known-version table, or the Ventura platform constraint rejects the
matched version, the resolver returns the deterministic fallback with a
warning and without any fatal path (the embedded resolver is a total
function); the fallback — the known version identifiers coerced, sorted
descending by semantic-version comparison, first taken — is `14.3.0`, the
maximal known version under semver comparison. -/
theorem c8_fallback_version (env : XcodeResolveEnv) :
    (scanVersion env = none → expectedXcodeVersion env = (fallbackXcode, true))
    ∧ (∀ v, scanVersion env = some v → tableLookup XcodeVersions v = none →
        expectedXcodeVersion env = (fallbackXcode, true))
    ∧ (∀ v, scanVersion env = some v → env.isVentura = true → jsStartsWith v "14" = false →
        expectedXcodeVersion env = (fallbackXcode, true))
    ∧ fallbackXcode = "14.3.0"
    ∧ (xcodeVersionKeys.all
        (fun k => semverLeB (coerceVersion k) (coerceVersion fallbackXcode))) = true := by
  refine ⟨?_, ?_, ?_, by rfl, by rfl⟩
  · intro h
    simp [expectedXcodeVersion, h, startsWith14]
  · intro v h hlook
    simp only [expectedXcodeVersion, h, hlook]
    split_ifs <;> simp_all
  · intro v h hv h14
    simp [expectedXcodeVersion, h, hv, h14, startsWith14]

theorem c8_fallback_version_witness :
    expectedXcodeVersion resolveEnvNone = (fallbackXcode, true)
    ∧ fallbackXcode = "14.3.0" :=
  ⟨(c8_fallback_version resolveEnvNone).1 rfl,
   (c8_fallback_version resolveEnvNone).2.2.2.1⟩

/-- C9 counterexample: on win32 the desired arguments `["a", "b"]` join to
`"a\r\nb"`; a persisted `args.gn` written with LF endings holds `"a\nb"`.
After the spec's native-line-ending normalization the two sides are equal, so
the claim says no regeneration is needed; the code compares the persisted
contents without normalizing and decides to regenerate. -/
theorem c9_eol_normalization_counterexample :
    needsRegeneration true (some "a\nb") true ["a", "b"] = true
    ∧ jsTrim (specNormalizeEol true "a\nb")
        = jsTrim (specNormalizeEol true (joinedGenArgs true ["a", "b"])) :=
  ⟨rfl, rfl⟩

/-- C9 amended: the gate regenerates when `build.ninja` is absent, when
`args.gn` is absent, and otherwise exactly when the persisted contents,
trimmed, differ from the desired arguments joined with the platform's native
separator and trimmed — with no line-ending normalization applied to the
persisted contents. A persisted file holding exactly the joined desired text
causes no regeneration. -/
theorem c9_regeneration_gate_amended (f : Option String) (w : Bool)
    (args : List String) (c : String) :
    needsRegeneration false f w args = true
    ∧ needsRegeneration true none w args = true
    ∧ needsRegeneration true (some c) w args = !(jsTrim c == jsTrim (joinedGenArgs w args))
    ∧ needsRegeneration true (some (joinedGenArgs w args)) w args = false := by
  refine ⟨rfl, rfl, rfl, ?_⟩
  simp [needsRegeneration]

set_option maxHeartbeats 1000000 in
/-- C10: once the accelerator pipeline decides a (re)download is needed, the
whole install directory — and with it the `.sha` marker stored inside it —
is removed before the download is spawned (the directory-removal event
precedes the download event in every trace containing a download), and on a
failed download or checksum verification the final state has no install
directory, no marker and no tmp file left. -/
theorem c10_delete_before_download (env : GomaEnv) (st : GomaState) :
    (GomaEvent.download ∈ (downloadAndPrepareGoma env st).2.2 →
        GomaEvent.rimrafGomaDir ∈
          ((downloadAndPrepareGoma env st).2.2.takeWhile (fun e => !(e == .download))))
    ∧ ((downloadAndPrepareGoma env st).1 = .fatalDownload →
        (downloadAndPrepareGoma env st).2.1.gomaDirExists = false
        ∧ (downloadAndPrepareGoma env st).2.1.shaFile = none
        ∧ (downloadAndPrepareGoma env st).2.1.tmpDownloadExists = false)
    ∧ (∀ h s, (downloadAndPrepareGoma env st).1 = .fatalChecksum h s →
        (downloadAndPrepareGoma env st).2.1.gomaDirExists = false
        ∧ (downloadAndPrepareGoma env st).2.1.shaFile = none
        ∧ (downloadAndPrepareGoma env st).2.1.tmpDownloadExists = false) := by
  rcases htl : tableLookup GOMA_PLATFORM_SHAS env.gomaPlatform with _ | bs
  · simp [downloadAndPrepareGoma, htl]
  · simp only [downloadAndPrepareGoma, htl]
    split_ifs <;> simp_all [List.takeWhile] <;> decide

theorem c10_delete_before_download_witness :
    ((downloadAndPrepareGoma gomaEnvDlFail gomaStEmpty).2.1.gomaDirExists = false
      ∧ (downloadAndPrepareGoma gomaEnvDlFail gomaStEmpty).2.1.shaFile = none
      ∧ (downloadAndPrepareGoma gomaEnvDlFail gomaStEmpty).2.1.tmpDownloadExists = false)
    ∧ GomaEvent.rimrafGomaDir ∈
        ((downloadAndPrepareGoma gomaEnvDlFail gomaStEmpty).2.2.takeWhile
          (fun e => !(e == .download))) := by
  refine ⟨(c10_delete_before_download gomaEnvDlFail gomaStEmpty).2.1 rfl, ?_⟩
  refine (c10_delete_before_download gomaEnvDlFail gomaStEmpty).1 ?_
  rw [show (downloadAndPrepareGoma gomaEnvDlFail gomaStEmpty).2.2
      = [GomaEvent.writeGnFile, .rimrafGomaDir, .rimrafTmp, .download, .rimrafTmp, .fatal]
      from rfl]
  simp
